import Mathlib

/-!
# Verification of the finalyzer natural-language query engine

A shallow embedding of `backend/services/query_engine.py` together with
theorems about its behaviour.  Python floats are modelled by `Rat`
(the spec's arithmetic properties are stated in exact arithmetic),
Python `dict`s by insertion-ordered association lists (which is exactly
the observable behaviour of CPython dicts), and the external
collaborators (SQLite ledger store, Chroma vector index) by function
parameters.  The md5 cache key of a query is modelled by the normalized
query itself (md5's only role in the code is to key the dict).
-/

set_option autoImplicit false

/-! ## String helpers

`lowerStr` models Python's `str.lower()` on ASCII text (all the lexicons
and descriptions handled by the engine are ASCII), `trimStr` models
`str.strip()`, and `strContains hay needle` models Python's
`needle in hay` substring test. -/

def lowerStr (s : String) : String :=
  String.mk (s.data.map Char.toLower)

def trimStr (s : String) : String :=
  String.mk (((s.data.dropWhile Char.isWhitespace).reverse.dropWhile Char.isWhitespace).reverse)

def charsPrefix : List Char → List Char → Bool
  | [], _ => true
  | _ :: _, [] => false
  | a :: as, b :: bs => a == b && charsPrefix as bs

def charsContain (needle : List Char) : List Char → Bool
  | [] => needle.isEmpty
  | c :: cs => charsPrefix needle (c :: cs) || charsContain needle cs

def strContains (hay needle : String) : Bool :=
  charsContain needle.data hay.data

/-- Split a character list at every separator satisfying `p`
(kernel-computable stand-in for Python's `str.split`). -/
def splitOnPredAux (p : Char → Bool) : List Char → List Char → List (List Char)
  | [], acc => [acc.reverse]
  | c :: cs, acc =>
    if p c then acc.reverse :: splitOnPredAux p cs []
    else splitOnPredAux p cs (c :: acc)

def splitOnPred (p : Char → Bool) (l : List Char) : List (List Char) :=
  splitOnPredAux p l []

/-- `int(...)` on a known-digit string. -/
def digitsToNat (l : List Char) : Nat :=
  l.foldl (fun a c => a * 10 + (c.toNat - '0'.toNat)) 0

/-! ## Dates

The engine only ever constructs Gregorian calendar dates via
`datetime.date`; we model them structurally.  `subOneDay` is
`d - timedelta(days=1)`, `addOneDay` is `d + timedelta(days=1)`. -/

structure Date where
  year : Nat
  month : Nat
  day : Nat
deriving DecidableEq

def isLeapYear (y : Nat) : Bool :=
  y % 4 == 0 && (y % 100 != 0 || y % 400 == 0)

def daysInMonth (y m : Nat) : Nat :=
  if m = 2 then (if isLeapYear y then 29 else 28)
  else if m = 4 ∨ m = 6 ∨ m = 9 ∨ m = 11 then 30
  else 31

def subOneDay (d : Date) : Date :=
  if 1 < d.day then ⟨d.year, d.month, d.day - 1⟩
  else if 1 < d.month then ⟨d.year, d.month - 1, daysInMonth d.year (d.month - 1)⟩
  else ⟨d.year - 1, 12, 31⟩

def addOneDay (d : Date) : Date :=
  if d.day < daysInMonth d.year d.month then ⟨d.year, d.month, d.day + 1⟩
  else if d.month < 12 then ⟨d.year, d.month + 1, 1⟩
  else ⟨d.year + 1, 1, 1⟩

def subDays (d : Date) : Nat → Date
  | 0 => d
  | n + 1 => subOneDay (subDays d n)

def addDays (d : Date) : Nat → Date
  | 0 => d
  | n + 1 => addOneDay (addDays d n)

/-- `a <= b` on dates, as Python compares `datetime.date` values. -/
def dateLe (a b : Date) : Bool :=
  if a.year < b.year then true
  else if a.year = b.year then
    if a.month < b.month then true
    else if a.month = b.month then decide (a.day ≤ b.day)
    else false
  else false

/-- Number of days from 0000-12-31 to `d` (proleptic Gregorian ordinal,
`date.toordinal()` in Python). -/
def leapsBefore (y : Nat) : Nat :=
  (y - 1) / 4 - (y - 1) / 100 + (y - 1) / 400

def daysBeforeMonth (y m : Nat) : Nat :=
  ((List.range (m - 1)).map (fun k => daysInMonth y (k + 1))).sum

def toOrdinal (d : Date) : Nat :=
  365 * (d.year - 1) + leapsBefore d.year + daysBeforeMonth d.year d.month + d.day

/-- `date.weekday()`: Monday is `0`.  0001-01-01 (ordinal 1) was a Monday. -/
def weekday (d : Date) : Nat :=
  (toOrdinal d + 6) % 7

/-! ## Data model (`backend/models.py`) -/

inductive Source where
  | chaseCredit
  | amex
  | coinbase
deriving DecidableEq

def Source.value : Source → String
  | .chaseCredit => "chase_credit"
  | .amex => "amex"
  | .coinbase => "coinbase"

inductive Category where
  | foodDining
  | shopping
  | transportation
  | entertainment
  | billsUtilities
  | travel
  | health
  | groceries
  | gas
  | subscriptions
  | income
  | transfer
  | other
deriving DecidableEq

def Category.value : Category → String
  | .foodDining => "Food & Dining"
  | .shopping => "Shopping"
  | .transportation => "Transportation"
  | .entertainment => "Entertainment"
  | .billsUtilities => "Bills & Utilities"
  | .travel => "Travel"
  | .health => "Health"
  | .groceries => "Groceries"
  | .gas => "Gas"
  | .subscriptions => "Subscriptions"
  | .income => "Income"
  | .transfer => "Transfer"
  | .other => "Other"

/-- `TransactionCategory(value)`: the Python enum constructor by value;
raises `ValueError` (modelled as `none`) on an unknown token. -/
def parseCategory (s : String) : Option Category :=
  if s = "Food & Dining" then some .foodDining
  else if s = "Shopping" then some .shopping
  else if s = "Transportation" then some .transportation
  else if s = "Entertainment" then some .entertainment
  else if s = "Bills & Utilities" then some .billsUtilities
  else if s = "Travel" then some .travel
  else if s = "Health" then some .health
  else if s = "Groceries" then some .groceries
  else if s = "Gas" then some .gas
  else if s = "Subscriptions" then some .subscriptions
  else if s = "Income" then some .income
  else if s = "Transfer" then some .transfer
  else if s = "Other" then some .other
  else none

/-- The fields of `models.Transaction` that the query engine reads.
`source` and `category` are optional exactly as the defensive code
treats them (`txn.source.value if txn.source else "unknown"`). -/
structure Transaction where
  id : Nat
  source : Option Source
  rawCategory : Option String
  date : Date
  description : String
  amount : Rat
  category : Option Category
  tags : List String
deriving DecidableEq

/-- The intent dictionary produced by `_analyze_query_intent` / the cache.
Field values are kept raw (strings), as in the Python dict; they are
parsed only inside `_get_relevant_transactions`. -/
structure Intent where
  category : Option String
  start_date : Option String
  end_date : Option String
  search_terms : List String
  calculate_total : Bool
  query_type : String
deriving DecidableEq

/-- The fixed default intent returned when LLM intent analysis fails. -/
def defaultIntent : Intent :=
  { category := none, start_date := none, end_date := none,
    search_terms := [], calculate_total := true, query_type := "search" }

/-- `date.fromisoformat` on the `YYYY-MM-DD` format the engine feeds it;
unparseable input (`ValueError`) is modelled as `none`. -/
def parseIsoDate (s : String) : Option Date :=
  match splitOnPred (fun c => c == '-') s.data with
  | [y, m, d] =>
    if y.length = 4 && m.length = 2 && d.length = 2
        && (y ++ m ++ d).all Char.isDigit then
      let yn := digitsToNat y
      let mn := digitsToNat m
      let dn := digitsToNat d
      if 1 ≤ mn && mn ≤ 12 && 1 ≤ dn && dn ≤ daysInMonth yn mn then
        some ⟨yn, mn, dn⟩
      else none
    else none
  | _ => none

/-! ## Intent cache (`_intent_cache`, `_get_cached_intent`, `_cache_intent`)

The process-wide dict `_intent_cache : dict[str, tuple[dict, float]]` is
modelled as an insertion-ordered association list. -/

structure CacheEntry where
  key : String
  intent : Intent
  timestamp : Rat
deriving DecidableEq

def CACHE_TTL : Rat := 3600

/-- `hashlib.md5(query.lower().strip().encode()).hexdigest()`, modelled by
the normalized query itself (the hash only serves as a dict key). -/
def cacheKey (q : String) : String :=
  trimStr (lowerStr q)

def lookupEntry (key : String) : List CacheEntry → Option CacheEntry
  | [] => none
  | e :: es => if e.key = key then some e else lookupEntry key es

/-- `del cache[key]` (keys are unique in a dict, so removing the first
occurrence is exact). -/
def eraseKey (key : String) : List CacheEntry → List CacheEntry
  | [] => []
  | e :: es => if e.key = key then es else e :: eraseKey key es

/-- `cache[key] = value`: replace in place if present, else append
(CPython dict update semantics). -/
def dictInsert (key : String) (i : Intent) (ts : Rat) : List CacheEntry → List CacheEntry
  | [] => [⟨key, i, ts⟩]
  | e :: es => if e.key = key then ⟨key, i, ts⟩ :: es else e :: dictInsert key i ts es

/-- `_get_cached_intent(query)` at clock value `now`: returns the served
intent (if any) together with the cache after the lazy deletion of a
stale hit. -/
def getCachedIntent (q : String) (now : Rat) (c : List CacheEntry) :
    Option Intent × List CacheEntry :=
  let key := cacheKey q
  match lookupEntry key c with
  | some e =>
    if now - e.timestamp < CACHE_TTL then (some e.intent, c)
    else (none, eraseKey key c)
  | none => (none, c)

/-- Stable insertion used to model Python's (stable) `sorted(keys, key=timestamp)`. -/
def insertByTimestamp (x : CacheEntry) : List CacheEntry → List CacheEntry
  | [] => [x]
  | y :: ys => if x.timestamp ≤ y.timestamp then x :: y :: ys else y :: insertByTimestamp x ys

def sortByTimestamp : List CacheEntry → List CacheEntry
  | [] => []
  | x :: xs => insertByTimestamp x (sortByTimestamp xs)

/-- `_cache_intent(query, intent)` at clock value `now`: insert, then if
the size exceeds 1000 delete the 100 oldest-by-timestamp keys. -/
def cacheIntent (q : String) (i : Intent) (now : Rat) (c : List CacheEntry) :
    List CacheEntry :=
  let c' := dictInsert (cacheKey q) i now c
  if 1000 < c'.length then
    let oldest := ((sortByTimestamp c').map CacheEntry.key).take 100
    c'.filter (fun e => !(oldest.contains e.key))
  else c'

/-! ## Relative date parsing (`parse_relative_date`)

The function takes `today` explicitly (the Python code reads
`date.today()`; all claims fix a value of "today").  The three
`re.search` patterns and the month-name pattern are modelled by
whitespace tokenization, which coincides with the regexes on the
whitespace-separated queries the engine receives. -/

def isNumericWord (w : List Char) : Bool :=
  !w.isEmpty && w.all Char.isDigit

/-- Search for `(?:last|past)\s+(\d+)\s+<unit>s?` over the word list. -/
def findLastPastN (unit : String) : List (List Char) → Option Nat
  | w1 :: w2 :: w3 :: rest =>
    if (w1 = "last".data || w1 = "past".data) && isNumericWord w2
        && (w3 = unit.data || w3 = (unit ++ "s").data) then
      some (digitsToNat w2)
    else findLastPastN unit (w2 :: w3 :: rest)
  | _ => none

/-- Search for `(?:in|during|for)\s+<month>(?:\s+(\d{4}))?` over the word
list; `some yr` when the pattern matched (`yr` the explicit year if one
was given). -/
def findMonthPattern (name : String) : List (List Char) → Option (Option Nat)
  | w1 :: w2 :: rest =>
    if (w1 = "in".data || w1 = "during".data || w1 = "for".data) && w2 = name.data then
      match rest with
      | y :: _ => if y.length = 4 && isNumericWord y then some (some (digitsToNat y)) else some none
      | [] => some none
    else findMonthPattern name (w2 :: rest)
  | _ => none

/-- The `month_names` dict, in insertion (= iteration) order. -/
def monthNames : List (String × Nat) :=
  [("january", 1), ("february", 2), ("march", 3), ("april", 4),
   ("may", 5), ("june", 6), ("july", 7), ("august", 8),
   ("september", 9), ("october", 10), ("november", 11), ("december", 12),
   ("jan", 1), ("feb", 2), ("mar", 3), ("apr", 4), ("jun", 6),
   ("jul", 7), ("aug", 8), ("sep", 9), ("sept", 9), ("oct", 10),
   ("nov", 11), ("dec", 12)]

def monthNameBranch (words : List (List Char)) (today : Date) :
    List (String × Nat) → Option (Date × Date)
  | [] => none
  | (name, num) :: rest =>
    match findMonthPattern name words with
    | some explicitYear =>
      let year :=
        match explicitYear with
        | some y => y
        | none => if today.month < num then today.year - 1 else today.year
      let e := if num = 12 then Date.mk year 12 31 else subOneDay ⟨year, num + 1, 1⟩
      some (⟨year, num, 1⟩, e)
    | none => monthNameBranch words today rest

def parseRelativeDate (query : String) (today : Date) : Option Date × Option Date :=
  let ql := lowerStr query
  if strContains ql "yesterday" then
    let yesterday := subOneDay today
    (some yesterday, some yesterday)
  else if strContains ql "today" && !strContains ql "to date" then
    (some today, some today)
  else if strContains ql "this week" then
    (some (subDays today (weekday today)), some today)
  else if strContains ql "last week" then
    let start := subDays today (weekday today + 7)
    (some start, some (addDays start 6))
  else if strContains ql "this month" then
    (some ⟨today.year, today.month, 1⟩, some today)
  else if strContains ql "last month" then
    let firstOfThisMonth : Date := ⟨today.year, today.month, 1⟩
    let lastOfPrevMonth := subOneDay firstOfThisMonth
    (some ⟨lastOfPrevMonth.year, lastOfPrevMonth.month, 1⟩, some lastOfPrevMonth)
  else if strContains ql "this year" then
    (some ⟨today.year, 1, 1⟩, some today)
  else if strContains ql "last year" then
    (some ⟨today.year - 1, 1, 1⟩, some ⟨today.year - 1, 12, 31⟩)
  else if strContains ql "year to date" || strContains ql "ytd" then
    (some ⟨today.year, 1, 1⟩, some today)
  else
    let words := (splitOnPred Char.isWhitespace ql.data).filter (fun w => !w.isEmpty)
    match findLastPastN "day" words with
    | some n => (some (subDays today n), some today)
    | none =>
    match findLastPastN "week" words with
    | some n => (some (subDays today (7 * n)), some today)
    | none =>
    match findLastPastN "month" words with
    | some n => (some (subDays today (n * 30)), some today)
    | none =>
    match monthNameBranch words today monthNames with
    | some (s, e) => (some s, some e)
    | none => (none, none)

/-! ## Brand and tag lexicons (`_extract_brand_keywords`, `_get_required_tags`) -/

/-- The fixed brand lexicon, in declaration order. -/
def brandLexicon : List String :=
  ["uber", "lyft", "grab", "bolt", "gojek",
   "doordash", "grubhub", "postmates", "ubereats", "instacart",
   "starbucks", "dunkin", "chipotle", "mcdonald", "chick-fil-a", "sweetgreen",
   "panera", "subway", "wendy", "taco bell", "panda express",
   "amazon", "target", "walmart", "costco", "whole foods", "trader joe",
   "best buy", "home depot", "lowes", "ikea", "nordstrom", "macys",
   "sephora", "ulta", "cvs", "walgreens",
   "netflix", "spotify", "hulu", "disney", "hbo", "apple tv", "peacock",
   "youtube", "audible", "kindle",
   "airbnb", "vrbo", "marriott", "hilton", "hyatt", "expedia", "booking.com",
   "emirates", "alaska", "delta", "united", "southwest", "american airlines",
   "jetblue", "spirit", "frontier", "hawaiian", "air canada", "british airways",
   "shell", "chevron", "exxon", "tesla", "bp", "arco",
   "apple", "google", "microsoft", "adobe", "github", "openai", "chatgpt",
   "dropbox", "zoom", "slack",
   "peloton", "planet fitness", "equinox",
   "at&t", "verizon", "t-mobile", "comcast", "xfinity"]

def extractBrandKeywords (query : String) : List String :=
  brandLexicon.filter (fun brand => strContains (lowerStr query) brand)

/-- The brand tier of `_get_required_tags`, in declaration order. -/
def brandTags : List (String × List String) :=
  [("uber eats", ["uber"]),
   ("uber", ["uber"]),
   ("lyft", ["lyft"]),
   ("grab", ["grab"]),
   ("emirates", ["airline"]),
   ("alaska air", ["airline"]),
   ("delta", ["airline"]),
   ("united", ["airline"]),
   ("southwest", ["airline"]),
   ("american airlines", ["airline"]),
   ("jetblue", ["airline"]),
   ("starbucks", ["starbucks"]),
   ("dunkin", ["dunkin"]),
   ("peets", ["peets"]),
   ("amazon", ["amazon"]),
   ("target", ["target"]),
   ("walmart", ["walmart"]),
   ("costco", ["costco"])]

/-- The category tier of `_get_required_tags`, in declaration order. -/
def categoryTags : List (String × List String) :=
  [("airline", ["airline", "flight"]),
   ("airlines", ["airline", "flight"]),
   ("flight", ["airline", "flight"]),
   ("flights", ["airline", "flight"]),
   ("plane", ["airline", "flight"]),
   ("rideshare", ["rideshare"]),
   ("ride share", ["rideshare"]),
   ("taxi", ["rideshare"]),
   ("hotel", ["hotel", "lodging", "accommodation"]),
   ("hotels", ["hotel", "lodging", "accommodation"]),
   ("lodging", ["hotel", "lodging", "accommodation"]),
   ("accommodation", ["hotel", "lodging", "accommodation"]),
   ("airbnb", ["airbnb", "accommodation"]),
   ("coffee", ["coffee"]),
   ("subscription", ["subscription"]),
   ("subscriptions", ["subscription"]),
   ("streaming", ["streaming"]),
   ("grocery", ["groceries"]),
   ("groceries", ["groceries"]),
   ("supermarket", ["groceries", "supermarket"]),
   ("food delivery", ["delivery"]),
   ("delivery", ["delivery"]),
   ("doordash", ["doordash", "delivery"]),
   ("grubhub", ["grubhub", "delivery"])]

def firstMatchingTags (query : String) : List (String × List String) → Option (List String)
  | [] => none
  | (phrase, tags) :: rest =>
    if strContains query phrase then some tags else firstMatchingTags query rest

/-- `_get_required_tags(query)` (the argument is the lowercased query, as
at the call site). -/
def getRequiredTags (query : String) : List String :=
  match firstMatchingTags query brandTags with
  | some tags => tags
  | none =>
    match firstMatchingTags query categoryTags with
    | some tags => tags
    | none => []

/-! ## Tag filter (`_has_required_tags`) -/

def airlineWithAir : List String :=
  ["delta air", "united air", "american air", "southwest air",
   "alaska air", "emirates ai", "etihad air", "qatar air",
   "air canada", "air france", "air india", "air-india", "air china",
   "british air", "virgin air", "hawaiian air", "spirit air",
   "frontier air", "norwegian air"]

def budgetAirlines : List String :=
  ["jetblue", "ryanair", "easyjet", "airasia"]

/-- The airline special case of `_has_required_tags`: curated description
patterns replace the generic tag/description test. -/
def airlineSpecialCase (descLower : String) : Bool :=
  if (["airline", "airways", " air lines"] : List String).any
      (fun term => strContains descLower term) then true
  else if airlineWithAir.any (fun pat => strContains descLower pat) then true
  else if budgetAirlines.any (fun a => strContains descLower a) then true
  else false

/-- `_has_required_tags(txn, required_tags)`. -/
def hasRequiredTags (txn : Transaction) (required : List String) : Bool :=
  if required.isEmpty then true
  else
    let descLower := lowerStr txn.description
    let txnTagsLower := txn.tags.map lowerStr
    if required.contains "airline" && required.contains "flight" then
      airlineSpecialCase descLower
    else if required.any (fun tag => strContains descLower (lowerStr tag)) then
      true
    else if !txnTagsLower.isEmpty
        && required.any (fun tag => txnTagsLower.contains (lowerStr tag)) then
      true
    else false

/-! ## Statistics (`_calculate_stats`) -/

/-- Python's `abs` on floats (kernel-computable form of `|q|`). -/
def ratAbs (q : Rat) : Rat := if q < 0 then -q else q

def digitChar (d : Nat) : Char := Char.ofNat ('0'.toNat + d)

def natToCharsAux : Nat → Nat → List Char
  | 0, _ => []
  | fuel + 1, n => if n = 0 then [] else natToCharsAux fuel (n / 10) ++ [digitChar (n % 10)]

def natToStr (n : Nat) : String :=
  if n = 0 then "0" else String.mk (natToCharsAux n n)

def pad2 (n : Nat) : String :=
  if n < 10 then "0" ++ natToStr n else natToStr n

/-- `txn.date.strftime("%Y-%m")`. -/
def monthKey (d : Date) : String :=
  natToStr d.year ++ "-" ++ pad2 d.month

structure YearStat where
  count : Nat
  spending : Rat
  income : Rat
deriving DecidableEq

structure DimStat where
  count : Nat
  spending : Rat
deriving DecidableEq

/-- One step of the `year_data` accumulation: get-or-initialise the
year's dict entry, bump `count`, and add to `spending` or `income`. -/
def bumpYear (y : Nat) (amt : Rat) : List (Nat × YearStat) → List (Nat × YearStat)
  | [] =>
    [(y, { count := 1,
           spending := if amt < 0 then ratAbs amt else 0,
           income := if amt < 0 then 0 else amt })]
  | (y', s) :: rest =>
    if y = y' then
      (y', { count := s.count + 1,
             spending := if amt < 0 then s.spending + ratAbs amt else s.spending,
             income := if amt < 0 then s.income else s.income + amt }) :: rest
    else (y', s) :: bumpYear y amt rest

/-- One step of the `source_data` / `month_data` / `category_data`
accumulations (count plus spending only). -/
def bumpDim (k : String) (amt : Rat) : List (String × DimStat) → List (String × DimStat)
  | [] => [(k, { count := 1, spending := if amt < 0 then ratAbs amt else 0 })]
  | (k', s) :: rest =>
    if k = k' then
      (k', { count := s.count + 1,
             spending := if amt < 0 then s.spending + ratAbs amt else s.spending }) :: rest
    else (k', s) :: bumpDim k amt rest

def sourceValue : Option Source → String
  | some s => s.value
  | none => "unknown"

def categoryValue : Option Category → String
  | some c => c.value
  | none => "Uncategorized"

def totalSpendingOf (txns : List Transaction) : Rat :=
  ((txns.filter (fun t => decide (t.amount < 0))).map (fun t => ratAbs t.amount)).sum

def totalIncomeOf (txns : List Transaction) : Rat :=
  ((txns.filter (fun t => decide (0 < t.amount))).map (fun t => t.amount)).sum

def byYearOf (txns : List Transaction) : List (Nat × YearStat) :=
  txns.foldl (fun acc t => bumpYear t.date.year t.amount acc) []

def bySourceOf (txns : List Transaction) : List (String × DimStat) :=
  txns.foldl (fun acc t => bumpDim (sourceValue t.source) t.amount acc) []

def byMonthOf (txns : List Transaction) : List (String × DimStat) :=
  txns.foldl (fun acc t => bumpDim (monthKey t.date) t.amount acc) []

def byCategoryOf (txns : List Transaction) : List (String × DimStat) :=
  txns.foldl (fun acc t => bumpDim (categoryValue t.category) t.amount acc) []

structure Stats where
  total_count : Nat
  total_spending : Rat
  total_income : Rat
  by_year : List (Nat × YearStat)
  by_source : List (String × DimStat)
  by_month : List (String × DimStat)
  by_category : List (String × DimStat)
deriving DecidableEq

/-- `_calculate_stats(transactions)`; the empty dict returned for an
empty input is modelled as `none`. -/
def calculateStats (txns : List Transaction) : Option Stats :=
  if txns.isEmpty then none
  else
    some { total_count := txns.length,
           total_spending := totalSpendingOf txns,
           total_income := totalIncomeOf txns,
           by_year := byYearOf txns,
           by_source := bySourceOf txns,
           by_month := byMonthOf txns,
           by_category := byCategoryOf txns }

/-- The `total_amount` field of the `QueryResponse` built by
`query_transactions` from the retrieved transaction list:
`total_amount = stats.get("total_spending") if transactions else None`
followed by `-total_amount if total_amount else None` (note Python
truthiness: a `0.0` total is falsy). -/
def queryTotalAmount (txns : List Transaction) : Option Rat :=
  let stats := calculateStats txns
  let total_amount : Option Rat :=
    if txns.isEmpty then none else stats.map Stats.total_spending
  match total_amount with
  | some t => if t = 0 then none else some (-t)
  | none => none

/-! ## Candidate retrieval (`_get_relevant_transactions`)

The external collaborators are passed in as functions:
`searchTransactions term limit` is `db.search_transactions`,
`getTransactionsByIds` is `db.get_transactions_by_ids`,
`getAllTransactions start end category limit` is
`db.get_all_transactions`, and `vectorSearch query n category_filter`
is `vector_store.search` (returning the hit ids). -/

structure Env where
  searchTransactions : String → Nat → List Transaction
  getTransactionsByIds : List Nat → List Transaction
  getAllTransactions : Option Date → Option Date → Option Category → Nat → List Transaction
  vectorSearch : String → Nat → Option String → List Nat

/-- The running `transactions` list and `seen_ids` set. -/
structure RetState where
  transactions : List Transaction
  seenIds : List Nat
deriving DecidableEq

def addTxn (st : RetState) (t : Transaction) : RetState :=
  { transactions := st.transactions ++ [t], seenIds := st.seenIds ++ [t.id] }

/-- Phase A inner loop: keep hits whose description contains the brand
keyword, deduplicated by id. -/
def phaseAFold (keyword : String) (st : RetState) (hits : List Transaction) : RetState :=
  hits.foldl
    (fun st txn =>
      if st.seenIds.contains txn.id then st
      else if strContains (lowerStr txn.description) (lowerStr keyword) then addTxn st txn
      else st)
    st

/-- Phase A (brand direct search). -/
def phaseA (search : String → Nat → List Transaction) (brandKeywords : List String)
    (st : RetState) : RetState :=
  brandKeywords.foldl (fun st kw => phaseAFold kw st (search kw 1000)) st

/-- The fixed `generic_category_terms` stoplist. -/
def genericCategoryTerms : List String :=
  ["airline", "airlines", "flight", "flights",
   "restaurant", "restaurants", "food", "dining",
   "hotel", "hotels", "lodging", "accommodation",
   "grocery", "groceries", "supermarket",
   "gas", "fuel", "transportation", "rideshare",
   "coffee", "cafe", "subscription", "subscriptions"]

def merchantSearchTerms (intent : Intent) : List String :=
  intent.search_terms.filter (fun t => !genericCategoryTerms.contains (lowerStr t))

/-- `search_variants` for one LLM search term: the term plus its
singular/plural variant (toggle of a trailing `s`). -/
def searchVariants (term : String) : List String :=
  if ("s".data.isSuffixOf term.data) && 3 < term.length then
    [term, String.mk term.data.dropLast]
  else [term, term ++ "s"]

/-- Phase B inner loop over the store hits of one search variant.  The
Bool component is `term_found_matches`: it is set as soon as a
not-yet-seen hit's description contains the variant, *before* the
required-tags gate. -/
def phaseBVariantFold (variant : String) (required : List String)
    (acc : RetState × Bool) (hits : List Transaction) : RetState × Bool :=
  hits.foldl
    (fun acc txn =>
      if acc.1.seenIds.contains txn.id then acc
      else if strContains (lowerStr txn.description) (lowerStr variant) then
        if !required.isEmpty then
          if hasRequiredTags txn required then (addTxn acc.1 txn, true) else (acc.1, true)
        else (addTxn acc.1 txn, true)
      else acc)
    acc

/-- Phase B treatment of one merchant search term. -/
def phaseBTerm (search : String → Nat → List Transaction) (term : String)
    (required : List String) (st : RetState) : RetState × Bool :=
  (searchVariants term).foldl
    (fun acc v => phaseBVariantFold v required acc (search v 500)) (st, false)

/-- Phase B (merchant-term direct search); also returns
`search_terms_with_matches`. -/
def phaseB (search : String → Nat → List Transaction) (terms : List String)
    (required : List String) (st : RetState) : RetState × List String :=
  terms.foldl
    (fun (acc : RetState × List String) term =>
      let r := phaseBTerm search term required acc.1
      (r.1, if r.2 then acc.2 ++ [term] else acc.2))
    (st, [])

/-- The common "dedup, then gate by `_has_required_tags` when
`required_tags` is non-empty" step used by phases C and D. -/
def tagGateAdd (required : List String) (st : RetState) (txn : Transaction) : RetState :=
  if st.seenIds.contains txn.id then st
  else if !required.isEmpty then
    if hasRequiredTags txn required then addTxn st txn else st
  else addTxn st txn

/-- `use_category_filter = None if required_tags else intent.get("category")`:
the category filter handed to the semantic index (note: the *raw* intent
string, not the parsed enum). -/
def semanticCategoryFilter (required : List String) (intentCategory : Option String) :
    Option String :=
  if !required.isEmpty then none else intentCategory

/-- Phase C (semantic fallback). -/
def phaseC (env : Env) (query : String) (intentCategory : Option String)
    (required : List String) (st : RetState) : RetState :=
  let searchResults := env.vectorSearch query 200 (semanticCategoryFilter required intentCategory)
  if searchResults.isEmpty then st
  else (env.getTransactionsByIds searchResults).foldl (tagGateAdd required) st

/-- Phase D (category fallback). -/
def phaseD (env : Env) (startDate endDate : Option Date) (category : Option Category)
    (required : List String) (st : RetState) : RetState :=
  (env.getAllTransactions startDate endDate category 500).foldl (tagGateAdd required) st

/-- The candidate state after phases A and B, together with
`search_terms_with_matches`. -/
def retrievalStateAB (env : Env) (query : String) (intent : Intent) :
    RetState × List String :=
  let required_tags := getRequiredTags (lowerStr query)
  let brand_keywords := extractBrandKeywords (lowerStr query)
  let st1 := phaseA env.searchTransactions brand_keywords ⟨[], []⟩
  phaseB env.searchTransactions (merchantSearchTerms intent) required_tags st1

/-- `should_use_semantic`: no brand keywords and no merchant-term
matches. -/
def shouldUseSemantic (env : Env) (query : String) (intent : Intent) : Bool :=
  let has_brand_search := !(extractBrandKeywords (lowerStr query)).isEmpty
  let has_merchant_matches := !(retrievalStateAB env query intent).2.isEmpty
  !has_brand_search && !has_merchant_matches

/-- Stable insertion used to model the (stable) Python
`transactions.sort(key=lambda x: x.date, reverse=True)`. -/
def insertByDateDesc (x : Transaction) : List Transaction → List Transaction
  | [] => [x]
  | y :: ys => if dateLe y.date x.date then x :: y :: ys else y :: insertByDateDesc x ys

def sortByDateDesc : List Transaction → List Transaction
  | [] => []
  | x :: xs => insertByDateDesc x (sortByDateDesc xs)

/-- `_get_relevant_transactions(query, intent)`. -/
def getRelevantTransactions (env : Env) (query : String) (intent : Intent) :
    List Transaction :=
  let start_date := intent.start_date.bind parseIsoDate
  let end_date := intent.end_date.bind parseIsoDate
  let category := intent.category.bind parseCategory
  let required_tags := getRequiredTags (lowerStr query)
  let brand_keywords := extractBrandKeywords (lowerStr query)
  let ab := retrievalStateAB env query intent
  let st2 := ab.1
  let has_merchant_matches := !ab.2.isEmpty
  let st3 :=
    if shouldUseSemantic env query intent then
      phaseC env query intent.category required_tags st2
    else st2
  let st4 :=
    if category.isSome && decide (st3.transactions.length < 50) && !has_merchant_matches then
      phaseD env start_date end_date category required_tags st3
    else st3
  let txns := st4.transactions
  let txns :=
    match start_date with
    | some sd => txns.filter (fun t => dateLe sd t.date)
    | none => txns
  let txns :=
    match end_date with
    | some ed => txns.filter (fun t => dateLe t.date ed)
    | none => txns
  let txns :=
    match category with
    | some cat =>
      if brand_keywords.isEmpty && required_tags.isEmpty then
        txns.filter (fun t => decide (t.category = some cat))
      else txns
    | none => txns
  (sortByDateDesc txns).take 200

/-! # Claim theorems -/

/-- C2: for airline-derived required tags (the set computed for the query
"airlines", containing both "airline" and "flight"), the tag-filter
predicate rejects a transaction with description "SSP EMIRATES LLC" and
accepts one with description "EMIRATES AI 1762203506740", regardless of
either transaction's tags (or any other field): the airline special case
tests only the description. -/
theorem claim_C2 (i j : Nat) (src src' : Option Source) (rc rc' : Option String)
    (d d' : Date) (amt amt' : Rat) (cat cat' : Option Category)
    (tags tags' : List String) :
    getRequiredTags (lowerStr "airlines") = ["airline", "flight"] ∧
    hasRequiredTags ⟨i, src, rc, d, "SSP EMIRATES LLC", amt, cat, tags⟩
      (getRequiredTags (lowerStr "airlines")) = false ∧
    hasRequiredTags ⟨j, src', rc', d', "EMIRATES AI 1762203506740", amt', cat', tags'⟩
      (getRequiredTags (lowerStr "airlines")) = true :=
  ⟨rfl, rfl, rfl⟩

/-- First day of the calendar month preceding `today`'s month (the date
the spec says `resolve("last month")` must start at). -/
def firstOfPrevMonth (today : Date) : Date :=
  if today.month = 1 then ⟨today.year - 1, 12, 1⟩
  else ⟨today.year, today.month - 1, 1⟩

/-- Last day of the calendar month preceding `today`'s month. -/
def lastOfPrevMonth (today : Date) : Date :=
  if today.month = 1 then ⟨today.year - 1, 12, 31⟩
  else ⟨today.year, today.month - 1, daysInMonth today.year (today.month - 1)⟩

/-- C6: for every value of `today` (with a well-formed month), resolving
the query "last month" returns the first and last day of the calendar
month preceding today's month; with `today = 2024-03-15` this is
`(2024-02-01, 2024-02-29)` (see the witness). -/
theorem claim_C6 (today : Date) (hm : 1 ≤ today.month) :
    parseRelativeDate "last month" today =
      (some (firstOfPrevMonth today), some (lastOfPrevMonth today)) := by
  have h1 : strContains (lowerStr "last month") "yesterday" = false := by decide
  have h2 : strContains (lowerStr "last month") "today" = false := by decide
  have h3 : strContains (lowerStr "last month") "this week" = false := by decide
  have h4 : strContains (lowerStr "last month") "last week" = false := by decide
  have h5 : strContains (lowerStr "last month") "this month" = false := by decide
  have h6 : strContains (lowerStr "last month") "last month" = true := by decide
  simp only [parseRelativeDate, h1, h2, h3, h4, h5, h6, Bool.false_and,
    Bool.false_eq_true, if_false, if_true, ite_false, ite_true]
  rcases Nat.lt_or_ge 1 today.month with h | h
  · have hne : ¬ today.month = 1 := by omega
    simp [subOneDay, firstOfPrevMonth, lastOfPrevMonth, hne, h]
  · have h1' : today.month = 1 := by omega
    simp [subOneDay, firstOfPrevMonth, lastOfPrevMonth, h1', daysInMonth]

/-- Witness for C6: the spec's Scenario 3,
`resolve("last month", today = 2024-03-15) = (2024-02-01, 2024-02-29)`. -/
theorem claim_C6_witness :
    1 ≤ (Date.mk 2024 3 15).month ∧
    parseRelativeDate "last month" ⟨2024, 3, 15⟩ =
      (some ⟨2024, 2, 1⟩, some ⟨2024, 2, 29⟩) := by
  refine ⟨by decide, ?_⟩
  rw [claim_C6 ⟨2024, 3, 15⟩ (by decide)]
  decide

/-! ### Stats lemmas -/

theorem byYearSpending_bump (y : Nat) (amt : Rat) (l : List (Nat × YearStat)) :
    ((bumpYear y amt l).map (fun p => p.2.spending)).sum =
      (l.map (fun p => p.2.spending)).sum + (if amt < 0 then ratAbs amt else 0) := by
  induction l with
  | nil => simp [bumpYear]
  | cons hd tl ih =>
    obtain ⟨y', s⟩ := hd
    by_cases hy : y = y'
    · simp [bumpYear, hy]
      split <;> ring
    · simp [bumpYear, hy, ih]
      ring

theorem totalSpendingOf_cons (t : Transaction) (ts : List Transaction) :
    totalSpendingOf (t :: ts) =
      (if t.amount < 0 then ratAbs t.amount else 0) + totalSpendingOf ts := by
  simp only [totalSpendingOf, List.filter_cons]
  split <;> simp_all

theorem byYear_foldl_spending (txns : List Transaction) :
    ∀ acc : List (Nat × YearStat),
      ((txns.foldl (fun acc t => bumpYear t.date.year t.amount acc) acc).map
          (fun p => p.2.spending)).sum =
        (acc.map (fun p => p.2.spending)).sum + totalSpendingOf txns := by
  induction txns with
  | nil => intro acc; simp [totalSpendingOf]
  | cons t ts ih =>
    intro acc
    simp only [List.foldl_cons, ih, byYearSpending_bump, totalSpendingOf_cons]
    ring

/-- C7: `_calculate_stats` is a pure function of its input (purity is
definitional in the embedding), returns the empty result on the empty
list, and the per-year spending figures sum exactly to `total_spending`. -/
theorem claim_C7 :
    calculateStats [] = none ∧
    (∀ T : List Transaction, calculateStats T = calculateStats T) ∧
    (∀ T : List Transaction,
      match calculateStats T with
      | none => True
      | some s => (s.by_year.map (fun p => p.2.spending)).sum = s.total_spending) := by
  refine ⟨rfl, fun T => rfl, fun T => ?_⟩
  by_cases hT : T.isEmpty
  · simp [calculateStats, hT]
  · simp only [calculateStats, hT, if_false, Bool.false_eq_true]
    simpa [byYearOf] using byYear_foldl_spending T []

/-- The all-credit transaction exhibiting the `total_amount` truthiness
slip in `query_transactions`. -/
def c3Txn : Transaction :=
  { id := 3, source := some .amex, rawCategory := none, date := ⟨2025, 1, 2⟩,
    description := "PAYROLL CREDIT", amount := 5, category := some .income, tags := [] }

/-- C3 counterexample: with one matching (all-credit) transaction the
claim demands `total_amount = -total_spending = 0`, but the code returns
`None` (`-total_amount if total_amount else None` treats `0.0` as
falsy), so `total_amount` is `None` despite a non-empty match list. -/
theorem claim_C3_counterexample :
    ([c3Txn] : List Transaction) ≠ [] ∧
    queryTotalAmount [c3Txn] = none ∧
    -(totalSpendingOf [c3Txn]) = 0 := by
  refine ⟨by simp, by norm_num [queryTotalAmount, calculateStats, totalSpendingOf, c3Txn], ?_⟩
  norm_num [totalSpendingOf, c3Txn]

/-- C3 (amended): `total_amount` equals `-total_spending` whenever the
match list is non-empty *and* `total_spending` is non-zero; it is `None`
when there are no matches or when `total_spending == 0.0` (Python
truthiness makes a zero total indistinguishable from "no total"). -/
theorem claim_C3 (txns : List Transaction) :
    queryTotalAmount txns =
      if txns ≠ [] ∧ totalSpendingOf txns ≠ 0 then some (-(totalSpendingOf txns))
      else none := by
  by_cases hemp : txns.isEmpty
  · have : txns = [] := by simpa [List.isEmpty_iff] using hemp
    simp [queryTotalAmount, this]
  · have hne : txns ≠ [] := by simpa [List.isEmpty_iff] using hemp
    by_cases hz : totalSpendingOf txns = 0
    · simp [queryTotalAmount, calculateStats, hemp, hz, hne]
    · simp [queryTotalAmount, calculateStats, hemp, hz, hne]

/-! ### Cache lemmas -/

theorem lookupEntry_dictInsert (k : String) (i : Intent) (ts : Rat) (c : List CacheEntry) :
    lookupEntry k (dictInsert k i ts c) = some ⟨k, i, ts⟩ := by
  induction c with
  | nil => simp [dictInsert, lookupEntry]
  | cons e es ih =>
    by_cases h : e.key = k
    · simp [dictInsert, lookupEntry, h]
    · simp [dictInsert, lookupEntry, h, ih]

theorem dictInsert_length_le (k : String) (i : Intent) (ts : Rat) (c : List CacheEntry) :
    (dictInsert k i ts c).length ≤ c.length + 1 := by
  induction c with
  | nil => simp [dictInsert]
  | cons e es ih =>
    by_cases h : e.key = k
    · simp [dictInsert, h]
    · simp only [dictInsert, h, if_false, List.length_cons]
      omega

/-- C5: a cache entry inserted more than the TTL (3600 s) before the
lookup is never served (and is deleted lazily), while the entry for the
same normalized query inserted strictly less than 3600 s ago is served. -/
theorem claim_C5 :
    (∀ (q : String) (now : Rat) (c : List CacheEntry) (e : CacheEntry),
      lookupEntry (cacheKey q) c = some e →
      3600 < now - e.timestamp →
      getCachedIntent q now c = (none, eraseKey (cacheKey q) c)) ∧
    (∀ (q q' : String) (i : Intent) (t now : Rat) (c : List CacheEntry),
      c.length < 1000 →
      cacheKey q' = cacheKey q →
      now - t < 3600 →
      (getCachedIntent q' now (cacheIntent q i t c)).1 = some i) := by
  constructor
  · intro q now c e hl hstale
    have : ¬ (now - e.timestamp < CACHE_TTL) := by
      simp only [CACHE_TTL]
      linarith
    simp [getCachedIntent, hl, this]
  · intro q q' i t now c hsmall hkey hfresh
    have hnoevict : cacheIntent q i t c = dictInsert (cacheKey q) i t c := by
      have hle := dictInsert_length_le (cacheKey q) i t c
      have : ¬ (1000 < (dictInsert (cacheKey q) i t c).length) := by omega
      simp [cacheIntent, this]
    have hl := lookupEntry_dictInsert (cacheKey q) i t c
    have hlt : now - t < CACHE_TTL := by simpa [CACHE_TTL] using hfresh
    simp [hnoevict, getCachedIntent, hkey, hl, hlt]

/-- A one-entry cache exercising both branches of C5. -/
def c5Cache : List CacheEntry := [⟨cacheKey "old query", defaultIntent, 0⟩]

/-- Witness for C5: the stale entry (age 4000 s) is not served and is
evicted; a fresh insert (age 100 s) is served, also through a
differently-capitalized spelling of the same query. -/
theorem claim_C5_witness :
    lookupEntry (cacheKey "old query") c5Cache = some ⟨cacheKey "old query", defaultIntent, 0⟩ ∧
    (3600 : Rat) < 4000 - 0 ∧
    getCachedIntent "old query" 4000 c5Cache = (none, eraseKey (cacheKey "old query") c5Cache) ∧
    ([] : List CacheEntry).length < 1000 ∧
    cacheKey "New Query" = cacheKey "new query" ∧
    (100 : Rat) - 0 < 3600 ∧
    (getCachedIntent "New Query" 100 (cacheIntent "new query" defaultIntent 0 [])).1 =
      some defaultIntent := by
  have h1 : lookupEntry (cacheKey "old query") c5Cache =
      some ⟨cacheKey "old query", defaultIntent, 0⟩ := by decide
  have h2 : (3600 : Rat) < 4000 - 0 := by rw [sub_zero]; decide
  have h4 : ([] : List CacheEntry).length < 1000 := by decide
  have h5 : cacheKey "New Query" = cacheKey "new query" := by decide
  have h6 : (100 : Rat) - 0 < 3600 := by rw [sub_zero]; decide
  exact ⟨h1, h2, claim_C5.1 "old query" 4000 c5Cache _ h1 h2, h4, h5, h6,
    claim_C5.2 "new query" "New Query" defaultIntent 0 100 [] h4 h5 h6⟩

theorem dictInsert_fresh (k : String) (i : Intent) (ts : Rat) (c : List CacheEntry)
    (h : k ∉ c.map CacheEntry.key) :
    dictInsert k i ts c = c ++ [⟨k, i, ts⟩] := by
  induction c with
  | nil => rfl
  | cons e es ih =>
    simp only [List.map_cons, List.mem_cons] at h
    push_neg at h
    have : ¬ e.key = k := fun hh => h.1 hh.symm
    simp [dictInsert, this, ih h.2]

theorem insertByTimestamp_front (x : CacheEntry) (l : List CacheEntry)
    (h : ∀ y ∈ l, x.timestamp ≤ y.timestamp) :
    insertByTimestamp x l = x :: l := by
  cases l with
  | nil => rfl
  | cons y ys => simp [insertByTimestamp, h y (by simp)]

theorem sortByTimestamp_sorted (l : List CacheEntry)
    (h : l.Pairwise (fun a b => a.timestamp < b.timestamp)) :
    sortByTimestamp l = l := by
  induction l with
  | nil => rfl
  | cons x xs ih =>
    rw [List.pairwise_cons] at h
    rw [sortByTimestamp, ih h.2, insertByTimestamp_front]
    intro y hy
    exact le_of_lt (h.1 y hy)

theorem filter_contains_cons_out (a : String) (ks : List String) (l : List CacheEntry)
    (ha : a ∉ l.map CacheEntry.key) :
    l.filter (fun e => !((a :: ks).contains e.key)) =
      l.filter (fun e => !(ks.contains e.key)) := by
  induction l with
  | nil => rfl
  | cons e es ih =>
    simp only [List.map_cons, List.mem_cons] at ha
    push_neg at ha
    have hne : (e.key == a) = false := by
      simp only [beq_eq_false_iff_ne]
      exact fun hh => ha.1 hh.symm
    have ih' := ih ha.2
    simp only [List.contains_cons] at ih'
    simp only [List.filter_cons, List.contains_cons, hne, Bool.false_or]
    rw [ih']

theorem filter_take_keys_drop (l : List CacheEntry) :
    ∀ n : Nat, (l.map CacheEntry.key).Nodup →
      l.filter (fun e => !(((l.take n).map CacheEntry.key).contains e.key)) = l.drop n := by
  induction l with
  | nil => intro n _; simp
  | cons e es ih =>
    intro n hnd
    simp only [List.map_cons, List.nodup_cons] at hnd
    cases n with
    | zero => simp [List.take_zero, List.drop_zero, List.filter]
    | succ m =>
      simp only [List.take_succ_cons, List.map_cons, List.drop_succ_cons, List.filter_cons]
      have he : ((e.key :: (es.take m).map CacheEntry.key).contains e.key) = true := by
        simp [List.contains_cons]
      rw [he]
      simp only [Bool.not_true, Bool.false_eq_true, if_false]
      have hout : e.key ∉ es.map CacheEntry.key := hnd.1
      calc es.filter (fun x => !((e.key :: (es.take m).map CacheEntry.key).contains x.key))
          = es.filter (fun x => !(((es.take m).map CacheEntry.key).contains x.key)) :=
            filter_contains_cons_out e.key _ es hout
        _ = es.drop m := ih m hnd.2

theorem pairwise_take_drop {α : Type} (R : α → α → Prop) (l : List α) (n : Nat)
    (h : l.Pairwise R) :
    ∀ x ∈ l.take n, ∀ y ∈ l.drop n, R x y := by
  have h' : (l.take n ++ l.drop n).Pairwise R := by
    rw [List.take_append_drop]; exact h
  exact (List.pairwise_append.mp h').2.2

/-- C4: inserting a 1001st distinct query (fresh key, current timestamp)
into a 1000-entry cache whose timestamps increase with insertion order
leaves exactly 901 entries, namely the cache with its 100
oldest-by-timestamp entries removed; every evicted entry is strictly
older than every surviving one. -/
theorem claim_C4 (q : String) (i : Intent) (now : Rat) (c : List CacheEntry)
    (hlen : c.length = 1000)
    (hkeys : (c.map CacheEntry.key).Nodup)
    (hfresh : cacheKey q ∉ c.map CacheEntry.key)
    (hsorted : c.Pairwise (fun a b => a.timestamp < b.timestamp))
    (hnow : ∀ e ∈ c, e.timestamp < now) :
    cacheIntent q i now c = (c ++ [CacheEntry.mk (cacheKey q) i now]).drop 100 ∧
    (cacheIntent q i now c).length = 901 ∧
    (∀ e ∈ (c ++ [CacheEntry.mk (cacheKey q) i now]).take 100,
      ∀ e' ∈ (c ++ [CacheEntry.mk (cacheKey q) i now]).drop 100,
        e.timestamp < e'.timestamp) := by
  set new : CacheEntry := CacheEntry.mk (cacheKey q) i now with hnew
  have hins : dictInsert (cacheKey q) i now c = c ++ [new] :=
    dictInsert_fresh (cacheKey q) i now c hfresh
  have hlen' : (c ++ [new]).length = 1001 := by simp [hlen]
  have hnd' : ((c ++ [new]).map CacheEntry.key).Nodup := by
    simp only [List.map_append, List.map_cons, List.map_nil]
    rw [List.nodup_append]
    refine ⟨hkeys, List.nodup_singleton _, ?_⟩
    intro a ha hb
    simp only [List.mem_singleton] at hb
    rw [hb] at ha
    exact hfresh ha
  have hpw : (c ++ [new]).Pairwise (fun a b => a.timestamp < b.timestamp) := by
    rw [List.pairwise_append]
    refine ⟨hsorted, List.pairwise_singleton _ _, ?_⟩
    intro a ha b hb
    simp only [List.mem_singleton] at hb
    rw [hb]
    exact hnow a ha
  have hsort : sortByTimestamp (c ++ [new]) = c ++ [new] := sortByTimestamp_sorted _ hpw
  have hmain : cacheIntent q i now c = (c ++ [new]).drop 100 := by
    have hcond : 1000 < (c ++ [new]).length := by rw [hlen']; omega
    simp only [cacheIntent, hins, hsort]
    rw [if_pos hcond, ← List.map_take]
    exact filter_take_keys_drop (c ++ [new]) 100 hnd'
  refine ⟨hmain, ?_, ?_⟩
  · rw [hmain, List.length_drop, hlen']
  · exact pairwise_take_drop _ (c ++ [new]) 100 hpw

/-- Distinct cache keys for the C4 witness (the key of entry `n` has
`n` characters, so keys are injective in `n`). -/
def c4Key (n : Nat) : String := String.mk (List.replicate n 'a')

/-- A concrete full cache of 1000 entries with strictly increasing
timestamps. -/
def c4Cache : List CacheEntry :=
  (List.range 1000).map (fun n => ⟨c4Key n, defaultIntent, (n : Rat)⟩)

theorem c4Key_ne_b (n : Nat) : c4Key n ≠ cacheKey "b" := by
  intro h
  have hb : cacheKey "b" = "b" := by decide
  rw [hb] at h
  have hd := congrArg String.data h
  have hlen := congrArg List.length hd
  simp only [c4Key, List.length_replicate] at hlen
  have hb1 : ("b" : String).data.length = 1 := by decide
  rw [hb1] at hlen
  subst hlen
  exact absurd h (by decide)

theorem c4Cache_length : c4Cache.length = 1000 := by simp [c4Cache]

theorem c4Cache_keys_nodup : (c4Cache.map CacheEntry.key).Nodup := by
  simp only [c4Cache, List.map_map]
  have : (CacheEntry.key ∘ fun n => CacheEntry.mk (c4Key n) defaultIntent (n : Rat)) = c4Key :=
    rfl
  rw [this]
  refine List.Nodup.map ?_ (List.nodup_range 1000)
  intro a b h
  have hd := congrArg (fun s => s.data.length) h
  simpa [c4Key] using hd

theorem c4Cache_fresh : cacheKey "b" ∉ c4Cache.map CacheEntry.key := by
  intro hmem
  simp only [c4Cache, List.map_map, List.mem_map] at hmem
  obtain ⟨n, _, hkey⟩ := hmem
  exact c4Key_ne_b n hkey

theorem c4Cache_sorted : c4Cache.Pairwise (fun a b => a.timestamp < b.timestamp) := by
  simp only [c4Cache]
  rw [List.pairwise_map]
  have := List.pairwise_lt_range 1000
  exact this.imp (fun h => Nat.cast_lt.mpr h)

theorem c4Cache_now : ∀ e ∈ c4Cache, e.timestamp < 2000 := by
  intro e he
  simp only [c4Cache, List.mem_map, List.mem_range] at he
  obtain ⟨n, hn, rfl⟩ := he
  show (n : Rat) < 2000
  exact_mod_cast (by omega : n < 2000)

/-- Witness for C4: inserting the 1001st distinct query "b" into the
concrete full cache evicts exactly its first (oldest) 100 entries and
leaves 901. -/
theorem claim_C4_witness :
    c4Cache.length = 1000 ∧
    cacheKey "b" ∉ c4Cache.map CacheEntry.key ∧
    cacheIntent "b" defaultIntent 2000 c4Cache =
      (c4Cache ++ [CacheEntry.mk (cacheKey "b") defaultIntent 2000]).drop 100 ∧
    (cacheIntent "b" defaultIntent 2000 c4Cache).length = 901 :=
  ⟨c4Cache_length, c4Cache_fresh,
    (claim_C4 "b" defaultIntent 2000 c4Cache c4Cache_length c4Cache_keys_nodup
      c4Cache_fresh c4Cache_sorted c4Cache_now).1,
    (claim_C4 "b" defaultIntent 2000 c4Cache c4Cache_length c4Cache_keys_nodup
      c4Cache_fresh c4Cache_sorted c4Cache_now).2.1⟩

/-! ### Retrieval membership lemmas -/

theorem mem_addTxn (st : RetState) (x t : Transaction) :
    t ∈ (addTxn st x).transactions ↔ t ∈ st.transactions ∨ t = x := by
  simp [addTxn]

theorem mem_phaseAFold (kw : String) (hits : List Transaction) :
    ∀ (st : RetState) (t : Transaction),
      t ∈ (phaseAFold kw st hits).transactions →
      t ∈ st.transactions ∨ strContains (lowerStr t.description) (lowerStr kw) = true := by
  induction hits with
  | nil => intro st t h; exact Or.inl h
  | cons x xs ih =>
    intro st t h
    have hstep : phaseAFold kw st (x :: xs) =
        phaseAFold kw
          (if st.seenIds.contains x.id then st
           else if strContains (lowerStr x.description) (lowerStr kw) then addTxn st x
           else st) xs := rfl
    rw [hstep] at h
    rcases ih _ t h with h' | h'
    · by_cases hseen : st.seenIds.contains x.id = true
      · rw [if_pos hseen] at h'
        exact Or.inl h'
      · rw [if_neg hseen] at h'
        by_cases hc : strContains (lowerStr x.description) (lowerStr kw) = true
        · rw [if_pos hc, mem_addTxn] at h'
          rcases h' with h' | rfl
          · exact Or.inl h'
          · exact Or.inr hc
        · rw [if_neg hc] at h'
          exact Or.inl h'
    · exact Or.inr h'

theorem mem_phaseA (search : String → Nat → List Transaction) (kws : List String) :
    ∀ (st : RetState) (t : Transaction),
      t ∈ (phaseA search kws st).transactions →
      t ∈ st.transactions ∨
        ∃ kw ∈ kws, strContains (lowerStr t.description) (lowerStr kw) = true := by
  induction kws with
  | nil => intro st t h; exact Or.inl h
  | cons k ks ih =>
    intro st t h
    have hstep : phaseA search (k :: ks) st =
        phaseA search ks (phaseAFold k st (search k 1000)) := rfl
    rw [hstep] at h
    rcases ih _ t h with h' | ⟨kw, hkw, hc⟩
    · rcases mem_phaseAFold k (search k 1000) st t h' with h'' | h''
      · exact Or.inl h''
      · exact Or.inr ⟨k, by simp, h''⟩
    · exact Or.inr ⟨kw, by simp [hkw], hc⟩

theorem mem_phaseBVariantFold (v : String) (required : List String) (hits : List Transaction) :
    ∀ (acc : RetState × Bool) (t : Transaction),
      t ∈ (phaseBVariantFold v required acc hits).1.transactions →
      t ∈ acc.1.transactions ∨ (required ≠ [] → hasRequiredTags t required = true) := by
  induction hits with
  | nil => intro acc t h; exact Or.inl h
  | cons x xs ih =>
    intro acc t h
    have hstep : phaseBVariantFold v required acc (x :: xs) =
        phaseBVariantFold v required
          (if acc.1.seenIds.contains x.id then acc
           else if strContains (lowerStr x.description) (lowerStr v) then
             if !required.isEmpty then
               if hasRequiredTags x required then (addTxn acc.1 x, true) else (acc.1, true)
             else (addTxn acc.1 x, true)
           else acc) xs := rfl
    rw [hstep] at h
    rcases ih _ t h with h' | h'
    · by_cases hseen : acc.1.seenIds.contains x.id = true
      · rw [if_pos hseen] at h'
        exact Or.inl h'
      · rw [if_neg hseen] at h'
        by_cases hc : strContains (lowerStr x.description) (lowerStr v) = true
        · rw [if_pos hc] at h'
          by_cases hre : (!required.isEmpty) = true
          · rw [if_pos hre] at h'
            by_cases htag : hasRequiredTags x required = true
            · rw [if_pos htag] at h'
              rcases (mem_addTxn acc.1 x t).mp h' with h'' | rfl
              · exact Or.inl h''
              · exact Or.inr fun _ => htag
            · rw [if_neg htag] at h'
              exact Or.inl h'
          · rw [if_neg hre] at h'
            rcases (mem_addTxn acc.1 x t).mp h' with h'' | rfl
            · exact Or.inl h''
            · refine Or.inr fun hne => absurd ?_ hre
              simp only [Bool.not_eq_true', ← List.isEmpty_iff] at hne ⊢
              simp [Bool.not_eq_true] at hne ⊢
              exact hne
        · rw [if_neg hc] at h'
          exact Or.inl h'
    · exact Or.inr h'

theorem mem_phaseBVariants (search : String → Nat → List Transaction)
    (required : List String) (vs : List String) :
    ∀ (acc : RetState × Bool) (t : Transaction),
      t ∈ (vs.foldl (fun acc v => phaseBVariantFold v required acc (search v 500)) acc).1.transactions →
      t ∈ acc.1.transactions ∨ (required ≠ [] → hasRequiredTags t required = true) := by
  induction vs with
  | nil => intro acc t h; exact Or.inl h
  | cons v vs ih =>
    intro acc t h
    rw [List.foldl_cons] at h
    rcases ih _ t h with h' | h'
    · exact mem_phaseBVariantFold v required (search v 500) acc t h'
    · exact Or.inr h'

theorem mem_phaseBTerm (search : String → Nat → List Transaction) (term : String)
    (required : List String) (st : RetState) (t : Transaction)
    (h : t ∈ (phaseBTerm search term required st).1.transactions) :
    t ∈ st.transactions ∨ (required ≠ [] → hasRequiredTags t required = true) := by
  rw [phaseBTerm] at h
  exact mem_phaseBVariants search required (searchVariants term) (st, false) t h

theorem mem_phaseB (search : String → Nat → List Transaction)
    (required : List String) (terms : List String) :
    ∀ (acc : RetState × List String) (t : Transaction),
      t ∈ (terms.foldl
        (fun (acc : RetState × List String) term =>
          let r := phaseBTerm search term required acc.1
          (r.1, if r.2 then acc.2 ++ [term] else acc.2)) acc).1.transactions →
      t ∈ acc.1.transactions ∨ (required ≠ [] → hasRequiredTags t required = true) := by
  induction terms with
  | nil => intro acc t h; exact Or.inl h
  | cons term ts ih =>
    intro acc t h
    rw [List.foldl_cons] at h
    rcases ih _ t h with h' | h'
    · simp only at h'
      rcases mem_phaseBTerm search term required acc.1 t h' with h'' | h''
      · exact Or.inl h''
      · exact Or.inr h''
    · exact Or.inr h'

theorem mem_phaseB' (search : String → Nat → List Transaction)
    (required : List String) (terms : List String) (st : RetState) (t : Transaction)
    (h : t ∈ (phaseB search terms required st).1.transactions) :
    t ∈ st.transactions ∨ (required ≠ [] → hasRequiredTags t required = true) := by
  rw [phaseB] at h
  exact mem_phaseB search required terms (st, []) t h

theorem mem_tagGateFold (required : List String) (txs : List Transaction) :
    ∀ (st : RetState) (t : Transaction),
      t ∈ (txs.foldl (tagGateAdd required) st).transactions →
      t ∈ st.transactions ∨ (required ≠ [] → hasRequiredTags t required = true) := by
  induction txs with
  | nil => intro st t h; exact Or.inl h
  | cons x xs ih =>
    intro st t h
    rw [List.foldl_cons] at h
    rcases ih _ t h with h' | h'
    · rw [tagGateAdd] at h'
      by_cases hseen : st.seenIds.contains x.id = true
      · rw [if_pos hseen] at h'
        exact Or.inl h'
      · rw [if_neg hseen] at h'
        by_cases hre : (!required.isEmpty) = true
        · rw [if_pos hre] at h'
          by_cases htag : hasRequiredTags x required = true
          · rw [if_pos htag] at h'
            rcases (mem_addTxn st x t).mp h' with h'' | rfl
            · exact Or.inl h''
            · exact Or.inr fun _ => htag
          · rw [if_neg htag] at h'
            exact Or.inl h'
        · rw [if_neg hre] at h'
          rcases (mem_addTxn st x t).mp h' with h'' | rfl
          · exact Or.inl h''
          · refine Or.inr fun hne => ?_
            exfalso
            apply hne
            have hb : required.isEmpty = true := by simpa using hre
            exact List.isEmpty_iff.mp hb
    · exact Or.inr h'

theorem mem_phaseC (env : Env) (query : String) (intentCategory : Option String)
    (required : List String) (st : RetState) (t : Transaction)
    (h : t ∈ (phaseC env query intentCategory required st).transactions) :
    t ∈ st.transactions ∨ (required ≠ [] → hasRequiredTags t required = true) := by
  rw [phaseC] at h
  by_cases hemp :
      (env.vectorSearch query 200 (semanticCategoryFilter required intentCategory)).isEmpty = true
  · rw [if_pos hemp] at h
    exact Or.inl h
  · rw [if_neg hemp] at h
    exact mem_tagGateFold required _ st t h

theorem mem_phaseD (env : Env) (sd ed : Option Date) (cat : Option Category)
    (required : List String) (st : RetState) (t : Transaction)
    (h : t ∈ (phaseD env sd ed cat required st).transactions) :
    t ∈ st.transactions ∨ (required ≠ [] → hasRequiredTags t required = true) := by
  rw [phaseD] at h
  exact mem_tagGateFold required _ st t h

theorem mem_insertByDateDesc (x t : Transaction) (l : List Transaction)
    (h : t ∈ insertByDateDesc x l) : t = x ∨ t ∈ l := by
  induction l with
  | nil => simpa [insertByDateDesc] using h
  | cons y ys ih =>
    rw [insertByDateDesc] at h
    by_cases hc : dateLe y.date x.date = true
    · rw [if_pos hc] at h
      simpa using h
    · rw [if_neg hc] at h
      rcases List.mem_cons.mp h with rfl | h'
      · exact Or.inr (by simp)
      · rcases ih h' with h'' | h''
        · exact Or.inl h''
        · exact Or.inr (by simp [h''])

theorem mem_sortByDateDesc (t : Transaction) (l : List Transaction)
    (h : t ∈ sortByDateDesc l) : t ∈ l := by
  induction l with
  | nil => exact h
  | cons x xs ih =>
    rw [sortByDateDesc] at h
    rcases mem_insertByDateDesc x t (sortByDateDesc xs) h with rfl | h'
    · simp
    · simp [ih h']

/-- Dispatch of membership through the optional semantic phase. -/
theorem mem_semPart (env : Env) (query : String) (intent : Intent) (t : Transaction)
    (h : t ∈ (if shouldUseSemantic env query intent = true then
        phaseC env query intent.category (getRequiredTags (lowerStr query))
          (retrievalStateAB env query intent).1
      else (retrievalStateAB env query intent).1).transactions) :
    t ∈ (retrievalStateAB env query intent).1.transactions ∨
      (getRequiredTags (lowerStr query) ≠ [] →
        hasRequiredTags t (getRequiredTags (lowerStr query)) = true) := by
  by_cases hs : shouldUseSemantic env query intent = true
  · rw [if_pos hs] at h
    exact mem_phaseC env query intent.category _ _ t h
  · rw [if_neg hs] at h
    exact Or.inl h

/-- Dispatch of membership through the optional category-fallback phase
and the optional semantic phase. -/
theorem mem_coreBody (env : Env) (query : String) (intent : Intent)
    (sd ed : Option Date) (cat : Option Category) (cond : Prop) [Decidable cond]
    (t : Transaction)
    (h : t ∈ (if cond then
        phaseD env sd ed cat (getRequiredTags (lowerStr query))
          (if shouldUseSemantic env query intent = true then
            phaseC env query intent.category (getRequiredTags (lowerStr query))
              (retrievalStateAB env query intent).1
          else (retrievalStateAB env query intent).1)
      else
        if shouldUseSemantic env query intent = true then
          phaseC env query intent.category (getRequiredTags (lowerStr query))
            (retrievalStateAB env query intent).1
        else (retrievalStateAB env query intent).1).transactions) :
    t ∈ (retrievalStateAB env query intent).1.transactions ∨
      (getRequiredTags (lowerStr query) ≠ [] →
        hasRequiredTags t (getRequiredTags (lowerStr query)) = true) := by
  by_cases hcond : cond
  · rw [if_pos hcond] at h
    rcases mem_phaseD env sd ed cat _ _ t h with h' | h'
    · exact mem_semPart env query intent t h'
    · exact Or.inr h'
  · rw [if_neg hcond] at h
    exact mem_semPart env query intent t h

/-- C1 (amended): when the derived `required_tags` list is non-empty,
every transaction returned by `_get_relevant_transactions` either passes
the tag filter `_has_required_tags` (which for airline tag sets tests
curated description patterns instead of the generic tag/description
containment) or was collected by the brand phase, with some brand
keyword of the query contained in its description. -/
theorem claim_C1 (env : Env) (query : String) (intent : Intent)
    (hreq : getRequiredTags (lowerStr query) ≠ []) :
    ∀ t ∈ getRelevantTransactions env query intent,
      hasRequiredTags t (getRequiredTags (lowerStr query)) = true ∨
      ∃ kw ∈ extractBrandKeywords (lowerStr query),
        strContains (lowerStr t.description) (lowerStr kw) = true := by
  intro t ht
  simp only [getRelevantTransactions] at ht
  have hre : (getRequiredTags (lowerStr query)).isEmpty = false := by
    cases hh : (getRequiredTags (lowerStr query)).isEmpty
    · rfl
    · exact absurd (List.isEmpty_iff.mp hh) hreq
  have hP : (t ∈ (retrievalStateAB env query intent).1.transactions ∨
      (getRequiredTags (lowerStr query) ≠ [] →
        hasRequiredTags t (getRequiredTags (lowerStr query)) = true)) →
      (hasRequiredTags t (getRequiredTags (lowerStr query)) = true ∨
        ∃ kw ∈ extractBrandKeywords (lowerStr query),
          strContains (lowerStr t.description) (lowerStr kw) = true) := by
    rintro (hab | hPtag)
    · simp only [retrievalStateAB] at hab
      rcases mem_phaseB' env.searchTransactions _ _ _ t hab with h1 | h1
      · rcases mem_phaseA env.searchTransactions _ _ t h1 with h0 | h0
        · exact absurd h0 (List.not_mem_nil t)
        · exact Or.inr h0
      · exact Or.inl (h1 hreq)
    · exact Or.inl (hPtag hreq)
  have ht1 := List.take_subset 200 _ ht
  have ht2 := mem_sortByDateDesc t _ ht1
  simp only [hre, Bool.and_false, if_false] at ht2
  rcases hcat : intent.category.bind parseCategory with _ | cat <;>
    simp only [hcat] at ht2 <;>
  rcases hed : intent.end_date.bind parseIsoDate with _ | ed <;>
    simp only [hed] at ht2 <;>
  rcases hsd : intent.start_date.bind parseIsoDate with _ | sd <;>
    simp only [hsd] at ht2 <;>
  repeat' replace ht2 := List.mem_of_mem_filter ht2
  all_goals exact hP (mem_coreBody env query intent _ _ _ _ t ht2)

/-- The property asserted by C1 as stated: some required tag is a
substring of the lowercased description, or some required tag matches
one of the transaction's own tags case-insensitively. -/
def claimTagMatch (txn : Transaction) (required : List String) : Bool :=
  required.any (fun tag => strContains (lowerStr txn.description) (lowerStr tag)) ||
  required.any (fun tag => (txn.tags.map lowerStr).contains (lowerStr tag))

/-- An airport-retail transaction whose description contains the brand
"emirates" but which carries no airline tag. -/
def c1Txn : Transaction :=
  { id := 1, source := some .amex, rawCategory := none, date := ⟨2025, 6, 1⟩,
    description := "SSP EMIRATES LLC", amount := -25, category := some .travel, tags := [] }

def c1Env : Env :=
  { searchTransactions := fun term _ => if term = "emirates" then [c1Txn] else [],
    getTransactionsByIds := fun _ => [],
    getAllTransactions := fun _ _ _ _ => [],
    vectorSearch := fun _ _ _ => [] }

/-- C1 counterexample: for the query "emirates" the derived required
tags are `["airline"]` (non-empty), yet the returned transaction
(collected by the brand phase, which bypasses the tag filter) neither
contains "airline" in its description nor carries a matching tag. -/
theorem claim_C1_counterexample :
    getRequiredTags (lowerStr "emirates") ≠ [] ∧
    getRelevantTransactions c1Env "emirates" defaultIntent = [c1Txn] ∧
    claimTagMatch c1Txn (getRequiredTags (lowerStr "emirates")) = false :=
  ⟨by decide, by rfl, by rfl⟩

/-- A genuine airline charge reached through the semantic phase. -/
def c1wTxn : Transaction :=
  { id := 5, source := some .chaseCredit, rawCategory := none, date := ⟨2025, 7, 9⟩,
    description := "EMIRATES AI 1762203506740", amount := -900, category := some .travel,
    tags := [] }

def c1wEnv : Env :=
  { searchTransactions := fun _ _ => [],
    getTransactionsByIds := fun ids => if ids = [5] then [c1wTxn] else [],
    getAllTransactions := fun _ _ _ _ => [],
    vectorSearch := fun _ _ _ => [5] }

/-- Witness for C1 (amended): the query "airlines" has non-empty
required tags, and on a concrete store the (non-empty) result satisfies
the amended invariant. -/
theorem claim_C1_witness :
    getRequiredTags (lowerStr "airlines") ≠ [] ∧
    getRelevantTransactions c1wEnv "airlines" defaultIntent = [c1wTxn] ∧
    (∀ t ∈ getRelevantTransactions c1wEnv "airlines" defaultIntent,
      hasRequiredTags t (getRequiredTags (lowerStr "airlines")) = true ∨
      ∃ kw ∈ extractBrandKeywords (lowerStr "airlines"),
        strContains (lowerStr t.description) (lowerStr kw) = true) :=
  ⟨by decide, by rfl, claim_C1 c1wEnv "airlines" defaultIntent (by decide)⟩

/-- C8: the semantic phase is gated exactly by "no brand keywords and no
phase-B term matches" (`should_use_semantic`, which is literally the
condition of the `if` around phase C in `getRelevantTransactions`); when
that gate is false the result does not depend on the semantic index at
all; and with non-empty `required_tags` the category filter passed to
the index is `none` and every semantic hit that is accepted passes the
tag filter. -/
theorem claim_C8 (env : Env) (query : String) (intent : Intent)
    (v : String → Nat → Option String → List Nat) (g : List Nat → List Transaction) :
    (shouldUseSemantic env query intent =
      ((extractBrandKeywords (lowerStr query)).isEmpty &&
        (retrievalStateAB env query intent).2.isEmpty)) ∧
    (shouldUseSemantic env query intent = false →
      getRelevantTransactions { env with vectorSearch := v, getTransactionsByIds := g }
          query intent =
        getRelevantTransactions env query intent) ∧
    (getRequiredTags (lowerStr query) ≠ [] →
      semanticCategoryFilter (getRequiredTags (lowerStr query)) intent.category = none) ∧
    (getRequiredTags (lowerStr query) ≠ [] →
      ∀ (st : RetState) (t : Transaction),
        t ∈ (phaseC env query intent.category
              (getRequiredTags (lowerStr query)) st).transactions →
        t ∈ st.transactions ∨
          hasRequiredTags t (getRequiredTags (lowerStr query)) = true) := by
  refine ⟨?_, ?_, ?_, ?_⟩
  · simp [shouldUseSemantic]
  · intro h
    have he : shouldUseSemantic { env with vectorSearch := v, getTransactionsByIds := g }
        query intent = false := h
    simp only [getRelevantTransactions, he, h, Bool.false_eq_true, if_false]
    rfl
  · intro hreq
    have hre : (getRequiredTags (lowerStr query)).isEmpty = false := by
      cases hh : (getRequiredTags (lowerStr query)).isEmpty
      · rfl
      · exact absurd (List.isEmpty_iff.mp hh) hreq
    simp [semanticCategoryFilter, hre]
  · intro hreq st t ht
    rcases mem_phaseC env query intent.category _ st t ht with h | h
    · exact Or.inl h
    · exact Or.inr (h hreq)

/-- Witness for C8: on a concrete store, the brand query "uber" disables
the semantic phase (so replacing the semantic index changes nothing),
while the category query "airlines" enables it with a suppressed
category filter, and the accepted hit passes the tag filter. -/
theorem claim_C8_witness :
    shouldUseSemantic c1wEnv "uber" defaultIntent = false ∧
    getRelevantTransactions
        { c1wEnv with vectorSearch := fun _ _ _ => [], getTransactionsByIds := fun _ => [] }
        "uber" defaultIntent =
      getRelevantTransactions c1wEnv "uber" defaultIntent ∧
    getRequiredTags (lowerStr "airlines") ≠ [] ∧
    semanticCategoryFilter (getRequiredTags (lowerStr "airlines")) defaultIntent.category = none ∧
    c1wTxn ∈ (phaseC c1wEnv "airlines" defaultIntent.category
        (getRequiredTags (lowerStr "airlines")) ⟨[], []⟩).transactions ∧
    (c1wTxn ∈ (RetState.mk [] []).transactions ∨
      hasRequiredTags c1wTxn (getRequiredTags (lowerStr "airlines")) = true) ∧
    shouldUseSemantic c1wEnv "airlines" defaultIntent = true := by
  have h1 : shouldUseSemantic c1wEnv "uber" defaultIntent = false := by decide
  have hreq : getRequiredTags (lowerStr "airlines") ≠ [] := by decide
  have hmem : c1wTxn ∈ (phaseC c1wEnv "airlines" defaultIntent.category
      (getRequiredTags (lowerStr "airlines")) ⟨[], []⟩).transactions := by decide
  exact ⟨h1,
    (claim_C8 c1wEnv "uber" defaultIntent (fun _ _ _ => []) (fun _ => [])).2.1 h1,
    hreq,
    (claim_C8 c1wEnv "airlines" defaultIntent (fun _ _ _ => []) (fun _ => [])).2.2.1 hreq,
    hmem,
    (claim_C8 c1wEnv "airlines" defaultIntent (fun _ _ _ => []) (fun _ => [])).2.2.2 hreq
      ⟨[], []⟩ c1wTxn hmem,
    by decide⟩

/-- C9 (amended): a malformed `start_date` or `end_date` is skipped
per-field (retrieval behaves exactly as if the field were absent, and
the other fields are still honored); a malformed `category` is likewise
skipped for the category fallback and the final category filter, but the
raw category string is still forwarded as the semantic-index filter, so
full absence-equivalence additionally requires the index to be
insensitive to its category-filter argument. -/
theorem claim_C9 (env : Env) (query : String) (intent : Intent) (s : String) :
    (parseIsoDate s = none →
      getRelevantTransactions env query { intent with start_date := some s } =
        getRelevantTransactions env query { intent with start_date := none }) ∧
    (parseIsoDate s = none →
      getRelevantTransactions env query { intent with end_date := some s } =
        getRelevantTransactions env query { intent with end_date := none }) ∧
    (parseCategory s = none →
      (∀ (q : String) (n : Nat) (c1 c2 : Option String),
        env.vectorSearch q n c1 = env.vectorSearch q n c2) →
      getRelevantTransactions env query { intent with category := some s } =
        getRelevantTransactions env query { intent with category := none }) := by
  have hbN : (Option.bind (none : Option String) parseIsoDate) = none := rfl
  have hcN : (Option.bind (none : Option String) parseCategory) = none := rfl
  refine ⟨?_, ?_, ?_⟩
  · intro h
    have hb : (Option.bind (some s) parseIsoDate) = none := h
    simp only [getRelevantTransactions, hb, hbN]
    rfl
  · intro h
    have hb : (Option.bind (some s) parseIsoDate) = none := h
    simp only [getRelevantTransactions, hb, hbN]
    rfl
  · intro h hins
    have hb : (Option.bind (some s) parseCategory) = none := h
    have hC : ∀ (st : RetState),
        phaseC env query (some s) (getRequiredTags (lowerStr query)) st =
          phaseC env query none (getRequiredTags (lowerStr query)) st := by
      intro st
      simp only [phaseC]
      rw [hins query 200 (semanticCategoryFilter (getRequiredTags (lowerStr query)) (some s))
        (semanticCategoryFilter (getRequiredTags (lowerStr query)) none)]
    simp only [getRelevantTransactions, hb, hcN, hC]
    rfl

/-- A transaction reachable only through an unfiltered semantic search. -/
def c9Txn : Transaction :=
  { id := 9, source := some .amex, rawCategory := none, date := ⟨2025, 3, 3⟩,
    description := "MISC THING", amount := -3, category := none, tags := [] }

/-- A semantic index that returns a hit only when no category filter is
passed (as Chroma does when the filter value matches no stored
category). -/
def c9Env : Env :=
  { searchTransactions := fun _ _ => [],
    getTransactionsByIds := fun ids => if ids = [9] then [c9Txn] else [],
    getAllTransactions := fun _ _ _ _ => [],
    vectorSearch := fun _ _ cf => match cf with | none => [9] | some _ => [] }

/-- C9 counterexample: an unknown category token is *not* treated as
absent: the raw string is still passed to the semantic index as a
category filter, which can change the result (here: empty versus one
hit), while treating the field as absent would leave the result
unchanged. -/
theorem claim_C9_counterexample :
    parseCategory "Bogus" = none ∧
    getRelevantTransactions c9Env "zzz" { defaultIntent with category := some "Bogus" } = [] ∧
    getRelevantTransactions c9Env "zzz" { defaultIntent with category := none } = [c9Txn] :=
  ⟨by decide, by rfl, by rfl⟩

/-- Witness for C9 (amended): concrete malformed fields on a concrete
store, with a filter-insensitive semantic index for the category part. -/
theorem claim_C9_witness :
    parseIsoDate "notadate" = none ∧
    parseCategory "Bogus" = none ∧
    getRelevantTransactions c1Env "emirates" { defaultIntent with start_date := some "notadate" } =
      getRelevantTransactions c1Env "emirates" { defaultIntent with start_date := none } ∧
    getRelevantTransactions c1Env "emirates" { defaultIntent with end_date := some "notadate" } =
      getRelevantTransactions c1Env "emirates" { defaultIntent with end_date := none } ∧
    getRelevantTransactions c1Env "emirates" { defaultIntent with category := some "Bogus" } =
      getRelevantTransactions c1Env "emirates" { defaultIntent with category := none } :=
  ⟨by decide, by decide,
    (claim_C9 c1Env "emirates" defaultIntent "notadate").1 (by decide),
    (claim_C9 c1Env "emirates" defaultIntent "notadate").2.1 (by decide),
    (claim_C9 c1Env "emirates" defaultIntent "Bogus").2.2 (by decide)
      (fun _ _ _ _ => rfl)⟩

/-- C10: when a phase-B search term is recorded as having matches (some
unseen store hit contains the term or its variant) while the tag filter
rejects every such hit — so phases A+B keep nothing — the semantic
fallback and the category fallback are both skipped and the retrieval
returns the empty list, even with `intent.category` set. -/
theorem claim_C10 (env : Env) (query : String) (intent : Intent)
    (_hb : extractBrandKeywords (lowerStr query) = [])
    (ht : (retrievalStateAB env query intent).1.transactions = [])
    (hm : (retrievalStateAB env query intent).2 ≠ []) :
    getRelevantTransactions env query intent = [] := by
  have hie : (retrievalStateAB env query intent).2.isEmpty = false := by
    cases hh : (retrievalStateAB env query intent).2.isEmpty
    · rfl
    · exact absurd (List.isEmpty_iff.mp hh) hm
  have hs : shouldUseSemantic env query intent = false := by
    simp [shouldUseSemantic, hie]
  rcases hcat : intent.category.bind parseCategory with _ | cat <;>
    rcases hed : intent.end_date.bind parseIsoDate with _ | ed <;>
      rcases hsd : intent.start_date.bind parseIsoDate with _ | sd <;>
        simp [getRelevantTransactions, hs, hie, ht, hcat, hed, hsd, sortByDateDesc]

/-- A hardware-store hit for the term "joes": its description contains
the term, but it fails the `["coffee"]` tag requirement. -/
def c10TxnJ : Transaction :=
  { id := 7, source := some .chaseCredit, rawCategory := none, date := ⟨2025, 2, 2⟩,
    description := "JOES HARDWARE", amount := -30, category := some .foodDining, tags := [] }

/-- A coffee purchase that the category fallback *could* have returned. -/
def c10TxnC : Transaction :=
  { id := 8, source := some .chaseCredit, rawCategory := none, date := ⟨2025, 2, 3⟩,
    description := "BLUE BOTTLE COFFEE", amount := -6, category := some .foodDining,
    tags := ["coffee"] }

def c10Env : Env :=
  { searchTransactions := fun term _ =>
      if term = "joes" || term = "joe" then [c10TxnJ] else [],
    getTransactionsByIds := fun _ => [c10TxnC],
    getAllTransactions := fun _ _ _ _ => [c10TxnC],
    vectorSearch := fun _ _ _ => [8] }

def c10Intent : Intent :=
  { defaultIntent with category := some "Food & Dining", search_terms := ["joes"] }

/-- Witness for C10: the query "coffee joes" records the term "joes" as
matched (its hit contains the term) although the tag filter rejects the
hit; with `intent.category` set and both the semantic index and the
store non-empty, retrieval still returns the empty list. -/
theorem claim_C10_witness :
    extractBrandKeywords (lowerStr "coffee joes") = [] ∧
    (retrievalStateAB c10Env "coffee joes" c10Intent).1.transactions = [] ∧
    (retrievalStateAB c10Env "coffee joes" c10Intent).2 = ["joes"] ∧
    c10Intent.category = some "Food & Dining" ∧
    getRelevantTransactions c10Env "coffee joes" c10Intent = [] := by
  refine ⟨by decide, by decide, by decide, by decide, ?_⟩
  exact claim_C10 c10Env "coffee joes" c10Intent (by decide) (by decide) (by decide)
